import Mathlib

/-!
Shallow embedding of `devtools/mangle_source.py`, a one-file utility that
reads a text file, conditionally replaces its first two lines (a Python 3
shebang followed by a munge marker) with a fixed shim block, and prints the
resulting lines to standard output.

The embedding models:
  * Python `str.splitlines` (the line splitting used at line 51 of the
    source) over `List Char`, with the full set of line boundaries that
    Python documents for `str.splitlines`;
  * the `hack` shim-block constant (source lines 16-36; note that Python
    implicit string-literal concatenation merges the element spanning
    source lines 19-20 and the element spanning lines 28-29, so the list
    has nine elements);
  * the `main` procedure (source lines 39-81) as a pure function from the
    positional command-line arguments and an abstract file system to the
    produced standard-output lines, standard-error lines and exit code.
-/

set_option autoImplicit false

namespace MangleSource

/-- The line boundaries of Python `str.splitlines`: LF, CR, vertical tab,
form feed, file/group/record separator, NEL (U+0085), LINE SEPARATOR
(U+2028) and PARAGRAPH SEPARATOR (U+2029).  CRLF is handled as a single
boundary by `splitlinesGo`. -/
def isLineBreak (c : Char) : Bool :=
  c = '\n' || c = '\r' || c = '\u000b' || c = '\u000c' ||
  c = '\u001c' || c = '\u001d' || c = '\u001e' ||
  c = '\u0085' || c = '\u2028' || c = '\u2029'

/-- Worker for `splitlines`: `acc` holds the characters of the current line
in reverse, and `afterCR` records whether the previous character was a CR
that already terminated a line, so that a directly following LF is consumed
without starting a new line (CRLF is a single boundary).  Every line
boundary terminates a line, and a final segment with no terminating
boundary is emitted only when it is nonempty — exactly the loop of Python
`str.splitlines`. -/
def splitlinesGo : List Char → List Char → Bool → List String
  | [], acc, _ => if acc = [] then [] else [String.mk acc.reverse]
  | c :: rest, acc, afterCR =>
    if afterCR ∧ c = '\n' then
      splitlinesGo rest acc false
    else if isLineBreak c then
      String.mk acc.reverse :: splitlinesGo rest [] (c == '\r')
    else
      splitlinesGo rest (c :: acc) false

/-- Model of Python `str.splitlines` applied to the file content, as in
`f.read().splitlines()` at source line 51. -/
def splitlines (content : List Char) : List String :=
  splitlinesGo content [] false

/-- The `valid_shebangs` tuple of source lines 59-64. -/
def valid_shebangs : List String :=
  ["#! /usr/bin/env python3",
   "#!/usr/bin/env python3",
   "#! /usr/bin/python3",
   "#!/usr/bin/python3"]

/-- The munge-marker literal compared against `lines[1]` at source line 66. -/
def mungeMarker : String := "# [:::MUNGE SHEBANG:::]"

/-- The `hack` constant of source lines 16-36.  Python implicit string
concatenation merges the adjacent literals at source lines 19-20 and at
lines 28-29, so the list has nine elements. -/
def hack : List String :=
  ["#! /bin/sh",
   "# vim: ts=4 filetype=python expandtab shiftwidth=4 softtabstop=4 syntax=python",
   "\x27\x27\x27\x27eval version=$( ls /usr/bin/python3.* | \\",
   "    grep \x27.*[0-9]$\x27 | sort -nr -k2 -t. | head -n1 ) && \\",
   "    version=$\x7bversion##/usr/bin/python3.\x7d && [ $\x7bversion\x7d ] && \\",
   "    [ $\x7bversion\x7d -ge 9 ] && exec /usr/bin/python3.$\x7bversion\x7d \"$0\" \"$@\" || \\",
   "    exec /usr/bin/env python3 \"$0\" \"$@\"\x27 #\x27\x27\x27",
   "# The above hack is to handle distros where /usr/bin/python3",
   "# doesn\x27t point to the latest version of python3 they provide"]

/-- The Shim Block exactly as displayed in the specification, section 6
("Emitted Shim Block"), transcribed line for line from the spec's fenced
block.  Stated separately from `hack` so the two can be compared: the
displayed block has nine lines even though the surrounding spec text
calls it a "fixed 10-line literal". -/
def shimBlockSpec : List String :=
  ["#! /bin/sh",
   "# vim: ts=4 filetype=python expandtab shiftwidth=4 softtabstop=4 syntax=python",
   "\x27\x27\x27\x27eval version=$( ls /usr/bin/python3.* | \\",
   "    grep \x27.*[0-9]$\x27 | sort -nr -k2 -t. | head -n1 ) && \\",
   "    version=$\x7bversion##/usr/bin/python3.\x7d && [ $\x7bversion\x7d ] && \\",
   "    [ $\x7bversion\x7d -ge 9 ] && exec /usr/bin/python3.$\x7bversion\x7d \"$0\" \"$@\" || \\",
   "    exec /usr/bin/env python3 \"$0\" \"$@\"\x27 #\x27\x27\x27",
   "# The above hack is to handle distros where /usr/bin/python3",
   "# doesn\x27t point to the latest version of python3 they provide"]

/-- The eligibility condition of source lines 65-66:
`len(lines) > 2 and lines[0] in valid_shebangs and lines[1] == marker`.
The guard `len(lines) > 2` means at least three elements, which is exactly
what lets the two index accesses be expressed by pattern matching. -/
def eligible : List String → Bool
  | l0 :: l1 :: _ :: _ => valid_shebangs.contains l0 && (l1 == mungeMarker)
  | _ => false

/-- The line transformation of source lines 65-70: when eligible, pop the
two matched lines and prepend `hack`; otherwise keep the lines unchanged. -/
def rewrite (lines : List String) : List String :=
  if eligible lines then hack ++ lines.drop 2 else lines

/-- The usage diagnostic printed at source line 56. -/
def usageMessage : String := "mangle_source.py takes exactly 1 argument; PATH"

/-- The diagnostic printed at source line 53. -/
def notFoundMessage : String := "File not found."

/-- The warning block printed at source lines 72-76 when the file is not
eligible: two header lines, the four shebangs each indented by two spaces,
and a closing line. -/
def warningLines : List String :=
  "File does not start with a supported Python 3 shebang line;" ::
    "supported shebangs are:" ::
      (valid_shebangs.map (fun s => "  " ++ s) ++ ["Ignoring."])

/-- Exit code used by `sys.exit(errno.ENOENT)` at source line 54. -/
def ENOENT : Nat := 2

/-- Exit code used by `sys.exit(errno.EINVAL)` at source line 57. -/
def EINVAL : Nat := 22

/-- The observable outcome of one process invocation: the lines written to
standard output, the lines written to standard error, and the exit code. -/
structure ProcResult where
  stdoutLines : List String
  stderrLines : List String
  exitCode : Nat
deriving DecidableEq, Repr

/-- The `main` function of source lines 39-81 as a pure function.

`args` are the positional command-line arguments, i.e. `sys.argv[1:]`, so
the source's `len(sys.argv) == 2` test is `args = [path]`.  `fs` is the
abstract file system: `fs path = some content` when opening `path` for
reading succeeds with that UTF-8 content, and `fs path = none` when it
raises `FileNotFoundError`.  Every `print` call of the source writes to
standard output (none passes `file=sys.stderr`), which is why
`stderrLines` is `[]` in every branch. -/
def main (args : List String) (fs : String → Option (List Char)) : ProcResult :=
  match args with
  | [path] =>
    match fs path with
    | none => ⟨[notFoundMessage], [], ENOENT⟩
    | some content =>
      let lines := splitlines content
      if eligible lines then
        ⟨hack ++ lines.drop 2, [], 0⟩
      else
        ⟨warningLines ++ lines, [], 0⟩
  | _ => ⟨[usageMessage], [], EINVAL⟩

theorem isLineBreak_ne_cr {d : Char} (hd : isLineBreak d = false) : d ≠ '\r' := by
  rintro rfl
  simp [isLineBreak] at hd

theorem isLineBreak_ne_lf {d : Char} (hd : isLineBreak d = false) : d ≠ '\n' := by
  rintro rfl
  simp [isLineBreak] at hd

theorem splitlinesGo_nil (acc : List Char) (b : Bool) :
    splitlinesGo [] acc b = if acc = [] then [] else [String.mk acc.reverse] := by
  simp [splitlinesGo]

theorem splitlinesGo_cons_nonbreak {d : Char} (hd : isLineBreak d = false)
    (rest acc : List Char) :
    splitlinesGo (d :: rest) acc false = splitlinesGo rest (d :: acc) false := by
  rw [splitlinesGo]
  simp [hd]

theorem splitlinesGo_cons_break {c : Char} (hc : isLineBreak c = true)
    (hcr : c ≠ '\r') (rest acc : List Char) :
    splitlinesGo (c :: rest) acc false =
      String.mk acc.reverse :: splitlinesGo rest [] false := by
  have hb : (c == '\r') = false := by
    cases hb2 : c == '\r'
    · rfl
    · exact absurd (eq_of_beq hb2) hcr
  rw [splitlinesGo]
  simp [hc, hb]

theorem splitlinesGo_breakFree :
    ∀ (s acc : List Char), (∀ x ∈ s, isLineBreak x = false) →
      splitlinesGo s acc false =
        if acc.reverse ++ s = [] then [] else [String.mk (acc.reverse ++ s)]
  | [], acc, _ => by
    rw [splitlinesGo_nil]
    by_cases h : acc = []
    · subst h
      simp
    · rw [if_neg h, List.append_nil, if_neg (by simpa using h)]
  | d :: s', acc, h => by
    have hd : isLineBreak d = false := h d (List.mem_cons_self d s')
    rw [splitlinesGo_cons_nonbreak hd,
      splitlinesGo_breakFree s' (d :: acc) (fun x hx => h x (List.mem_cons_of_mem d hx))]
    have hrw : (d :: acc).reverse ++ s' = acc.reverse ++ (d :: s') := by simp
    rw [hrw]

theorem splitlinesGo_split {c : Char} (hc : isLineBreak c = true) (hcr : c ≠ '\r')
    (b : List Char) :
    ∀ (a acc : List Char), (∀ x ∈ a, isLineBreak x = false) →
      splitlinesGo (a ++ c :: b) acc false =
        String.mk (acc.reverse ++ a) :: splitlinesGo b [] false
  | [], acc, _ => by
    rw [List.nil_append, splitlinesGo_cons_break hc hcr]
    simp
  | d :: a', acc, h => by
    have hd : isLineBreak d = false := h d (List.mem_cons_self d a')
    rw [List.cons_append, splitlinesGo_cons_nonbreak hd,
      splitlinesGo_split hc hcr b a' (d :: acc) (fun x hx => h x (List.mem_cons_of_mem d hx))]
    simp

theorem splitlinesGo_trailing {c : Char} (hc : isLineBreak c = false) :
    ∀ (s acc : List Char) (b : Bool),
      splitlinesGo (s ++ [c, '\n']) acc b = splitlinesGo (s ++ [c]) acc b
  | [], acc, b => by
    have hcn : c ≠ '\n' := isLineBreak_ne_lf hc
    have h1 : isLineBreak '\n' = true := by decide
    have h2 : ('\n' == '\r') = false := by decide
    simp [splitlinesGo, hc, hcn, h1, h2]

  | d :: s', acc, b => by
    rw [List.cons_append, List.cons_append, splitlinesGo, splitlinesGo]
    by_cases hb : b = true ∧ d = '\n'
    · rw [if_pos hb, if_pos hb]
      exact splitlinesGo_trailing hc s' acc false
    · rw [if_neg hb, if_neg hb]
      by_cases hd : isLineBreak d = true
      · rw [if_pos hd, if_pos hd, splitlinesGo_trailing hc s' [] (d == '\r')]
      · rw [if_neg hd, if_neg hd, splitlinesGo_trailing hc s' (d :: acc) false]

/-- C1: the shebang substitution is performed if and only if the line
sequence has more than two lines, line 0 exactly equals one of the four
recognized shebang strings and line 1 exactly equals the munge marker;
any deviation selects the unchanged pass-through branch. -/
theorem shebang_substitution_iff (lines : List String) :
    (eligible lines = true ↔
      2 < lines.length ∧ lines.getD 0 "" ∈ valid_shebangs ∧
        lines.getD 1 "" = mungeMarker) ∧
    (eligible lines = true → rewrite lines = hack ++ lines.drop 2) ∧
    (eligible lines = false → rewrite lines = lines) := by
  refine ⟨?_, fun h => by simp [rewrite, h], fun h => by simp [rewrite, h]⟩
  match lines with
  | [] => simp [eligible]
  | [a] => simp [eligible]
  | [a, b] => simp [eligible]
  | a :: b :: d :: t =>
    simp [eligible]

/-- Witness for C1 at a concrete eligible input: the substitution branch is
taken and prepends `hack`. -/
theorem shebang_substitution_iff_witness :
    rewrite ["#! /usr/bin/python3", "# [:::MUNGE SHEBANG:::]", "pass"] =
      hack ++ ["pass"] :=
  (shebang_substitution_iff
    ["#! /usr/bin/python3", "# [:::MUNGE SHEBANG:::]", "pass"]).2.1 (by decide)

/-- C2 counterexample: the claim says the prepended block is ten lines, but
`hack` has nine elements; on the spec's own example input (one payload
line) the whole output has ten lines, not the eleven a ten-line block
would force. -/
theorem shim_block_ten_lines_refuted :
    hack.length = 9 ∧ ¬ hack.length = 10 ∧
    (rewrite ["#!/usr/bin/env python3", "# [:::MUNGE SHEBANG:::]",
      "print(\x27hi\x27)"]).length = 10 := by
  decide

/-- C2 (amended): for every eligible input the block prepended to the
output is exactly the fixed nine literal Shim Block lines displayed in
spec section 6, byte for byte and in fixed order, identical regardless of
the input file's content. -/
theorem shim_block_fixed_nine (lines : List String)
    (h : eligible lines = true) :
    (rewrite lines).take 9 = hack ∧ hack = shimBlockSpec ∧
      hack.length = 9 := by
  refine ⟨?_, rfl, rfl⟩
  rw [(shebang_substitution_iff lines).2.1 h,
    show (9 : Nat) = hack.length from rfl, List.take_left]

/-- Witness for C2 (amended) at a concrete eligible input. -/
theorem shim_block_fixed_nine_witness :
    (rewrite ["#! /usr/bin/env python3", "# [:::MUNGE SHEBANG:::]",
      "x = 1"]).take 9 = hack :=
  (shim_block_fixed_nine _ (by decide)).1

/-- C3 counterexample: on an eligible three-line input the output has ten
lines, so the output from index 10 onward is empty while the source from
index 2 onward is not; the claim's offset 10 is wrong. -/
theorem line_preservation_at_ten_refuted :
    (rewrite ["#! /usr/bin/python3", "# [:::MUNGE SHEBANG:::]",
        "y = 2"]).drop 10 ≠
      (["#! /usr/bin/python3", "# [:::MUNGE SHEBANG:::]",
        "y = 2"] : List String).drop 2 := by
  decide

/-- C3 (amended): for every eligible input the output lines from index 9
onward equal the source lines from index 2 onward exactly — same count,
same order, no content altered; only the nine-line literal prefix of the
output differs from the source. -/
theorem line_preservation_from_nine (lines : List String)
    (h : eligible lines = true) :
    (rewrite lines).drop 9 = lines.drop 2 := by
  rw [(shebang_substitution_iff lines).2.1 h,
    show (9 : Nat) = hack.length from rfl, List.drop_left]

/-- Witness for C3 (amended) at a concrete eligible input. -/
theorem line_preservation_from_nine_witness :
    (rewrite ["#!/usr/bin/python3", "# [:::MUNGE SHEBANG:::]",
      "z = 3"]).drop 9 = ["z = 3"] :=
  line_preservation_from_nine _ (by decide)

/-- C6 counterexample: with zero arguments (and likewise with two) the
process exits with the EINVAL-equivalent code, but standard output is not
empty: the one-line usage explanation is printed there, because the
source's `print` at line 56 writes to standard output. -/
theorem usage_silent_stdout_refuted :
    (main [] (fun _ => none)).exitCode = EINVAL ∧
    (main [] (fun _ => none)).stdoutLines ≠ [] ∧
    (main ["a", "b"] (fun _ => none)).stdoutLines ≠ [] := by
  decide

/-- C6 (amended): for every invocation whose argument count is not exactly
one, the process terminates with the EINVAL-equivalent exit code, writes
nothing to standard error, and the only standard-output content is the
one-line usage explanation. -/
theorem usage_error_contract (args : List String)
    (fs : String → Option (List Char)) (h : args.length ≠ 1) :
    main args fs = ⟨[usageMessage], [], EINVAL⟩ := by
  match args with
  | [] => rfl
  | [p] => exact absurd rfl h
  | a :: b :: t => rfl

/-- Witness for C6 (amended) at the zero-argument invocation. -/
theorem usage_error_contract_witness :
    main [] (fun _ => none) = ⟨[usageMessage], [], EINVAL⟩ :=
  usage_error_contract [] (fun _ => none) (by decide)

/-- C7 counterexample: on a path that cannot be opened the process exits
with the ENOENT-equivalent code, but standard output is not empty: the
"File not found." diagnostic is printed there, because the source's
`print` at line 53 writes to standard output. -/
theorem notfound_silent_stdout_refuted :
    (main ["missing"] (fun _ => none)).exitCode = ENOENT ∧
    (main ["missing"] (fun _ => none)).stdoutLines ≠ [] := by
  decide

/-- C7 (amended): for every invocation whose single path argument cannot be
opened for reading, the process reports "File not found.", terminates with
the ENOENT-equivalent exit code, writes nothing to standard error, and the
only standard-output content is that diagnostic line. -/
theorem missing_file_contract (p : String)
    (fs : String → Option (List Char)) (h : fs p = none) :
    main [p] fs = ⟨[notFoundMessage], [], ENOENT⟩ := by
  simp [main, h]

/-- Witness for C7 (amended) at a concrete missing path. -/
theorem missing_file_contract_witness :
    main ["nope"] (fun _ => none) = ⟨[notFoundMessage], [], ENOENT⟩ :=
  missing_file_contract "nope" (fun _ => none) rfl

/-- C4: for every readable file that fails the eligibility check, the
rewriter's output lines equal the source lines exactly (the standard
output carries the warning block followed by the unchanged source lines),
the warning enumerates all four recognized shebang forms, and the process
exits with code 0. -/
theorem ineligible_passthrough (p : String)
    (fs : String → Option (List Char)) (content : List Char)
    (h1 : fs p = some content)
    (h2 : eligible (splitlines content) = false) :
    rewrite (splitlines content) = splitlines content ∧
    (main [p] fs).stdoutLines = warningLines ++ splitlines content ∧
    (main [p] fs).exitCode = 0 ∧
    (∀ s ∈ valid_shebangs, ("  " ++ s) ∈ warningLines) := by
  refine ⟨by simp [rewrite, h2], ?_, ?_, by decide⟩ <;>
    simp [main, h1, h2]

/-- Witness for C4 at a concrete one-line (hence ineligible) file. -/
theorem ineligible_passthrough_witness :
    (main ["f"] (fun _ => some ['a'])).stdoutLines =
      warningLines ++ ["a"] ∧
    (main ["f"] (fun _ => some ['a'])).exitCode = 0 :=
  ⟨(ineligible_passthrough "f" (fun _ => some ['a']) ['a'] rfl
      (by decide)).2.1,
   (ineligible_passthrough "f" (fun _ => some ['a']) ['a'] rfl
      (by decide)).2.2.1⟩

/-- C5 counterexample: in all three diagnostic situations (wrong argument
count, missing file, unsupported shebang) standard error stays empty and
the diagnostic text appears on standard output, so the diagnostics are not
written to standard error. -/
theorem diagnostics_on_stderr_refuted :
    (main [] (fun _ => none)).stderrLines = [] ∧
    (main [] (fun _ => none)).stdoutLines = [usageMessage] ∧
    (main ["p"] (fun _ => none)).stderrLines = [] ∧
    (main ["p"] (fun _ => none)).stdoutLines = [notFoundMessage] ∧
    (main ["p"] (fun _ => some ['a'])).stderrLines = [] ∧
    (main ["p"] (fun _ => some ['a'])).stdoutLines =
      warningLines ++ ["a"] := by
  decide

/-- C5 (amended): all diagnostic messages — the "File not found." message,
the wrong-argument-count explanation, and the unsupported-shebang warning
enumerating the four recognized shebang strings — are written to standard
output, and nothing is ever written to standard error. -/
theorem diagnostics_on_stdout (args : List String)
    (fs : String → Option (List Char)) :
    (main args fs).stderrLines = [] ∧
    (args.length ≠ 1 → (main args fs).stdoutLines = [usageMessage]) ∧
    (∀ p, args = [p] → fs p = none →
      (main args fs).stdoutLines = [notFoundMessage]) ∧
    (∀ p content, args = [p] → fs p = some content →
      eligible (splitlines content) = false →
      (main args fs).stdoutLines = warningLines ++ splitlines content) := by
  refine ⟨?_, ?_, ?_, ?_⟩
  · match args with
    | [] => rfl
    | [p] =>
      match hfs : fs p with
      | none => simp [main, hfs]
      | some content =>
        by_cases he : eligible (splitlines content) = true <;>
          simp [main, hfs, he]
    | a :: b :: t => rfl
  · intro h
    match args with
    | [] => rfl
    | [p] => exact absurd rfl h
    | a :: b :: t => rfl
  · rintro p rfl h
    simp [main, h]
  · rintro p content rfl h1 h2
    simp [main, h1, h2]

/-- Witness for C5 (amended) at the zero-argument invocation. -/
theorem diagnostics_on_stdout_witness :
    (main [] (fun _ => none)).stdoutLines = [usageMessage] :=
  (diagnostics_on_stdout [] (fun _ => none)).2.1 (by decide)

/-- C8: for every successfully-read file — the empty file and files with
fewer than three lines included — the rewrite step is total: the process
exits with code 0, the standard output is always one of the two branch
results, and the branch that reads line indices 0 and 1 is reachable only
when the more-than-two-lines guard holds, so those indices always exist
there. -/
theorem rewrite_total_on_read (p : String)
    (fs : String → Option (List Char)) (content : List Char)
    (h : fs p = some content) :
    (main [p] fs).exitCode = 0 ∧
    ((main [p] fs).stdoutLines = hack ++ (splitlines content).drop 2 ∨
      (main [p] fs).stdoutLines = warningLines ++ splitlines content) ∧
    (∀ lines : List String, eligible lines = true →
      2 < lines.length ∧ ∃ l0 l1 rest, lines = l0 :: l1 :: rest) := by
  refine ⟨?_, ?_, ?_⟩
  · by_cases he : eligible (splitlines content) = true <;>
      simp [main, h, he]
  · by_cases he : eligible (splitlines content) = true
    · exact Or.inl (by simp [main, h, he])
    · exact Or.inr (by simp [main, h, he])
  · intro lines hl
    match lines with
    | [] => exact absurd hl (by simp [eligible])
    | [a] => exact absurd hl (by simp [eligible])
    | [a, b] => exact absurd hl (by simp [eligible])
    | a :: b :: d :: t =>
      exact ⟨by simp, a, b, d :: t, rfl⟩

/-- Witness for C8 at the empty file. -/
theorem rewrite_total_on_read_witness :
    (main ["f"] (fun _ => some [])).exitCode = 0 ∧
    (main ["f"] (fun _ => some [])).stdoutLines = warningLines :=
  ⟨(rewrite_total_on_read "f" (fun _ => some []) [] rfl).1, by decide⟩

/-- C9 counterexample: content consisting of a single line terminator and
empty content yield different line sequences (`[""]` against `[]`), and
the program's outputs on the two files differ, so the output is not
invariant under adding or removing a single trailing line terminator for
every input file. -/
theorem trailing_newline_refuted :
    splitlines ['\n'] ≠ splitlines [] ∧
    main ["f"] (fun _ => some ['\n']) ≠ main ["f"] (fun _ => some []) := by
  decide

/-- C9 (amended): for every input file whose content ends in a character
that is not itself a line boundary, the program's output line sequence is
unchanged by the presence or absence of a single trailing LF: splitting
such terminator-ended content produces no empty final line, so content
ending "...x\n" and content ending "...x" yield identical output. -/
theorem trailing_newline_invariance (s : List Char) (c : Char)
    (hc : isLineBreak c = false) :
    splitlines (s ++ [c, '\n']) = splitlines (s ++ [c]) ∧
    (∀ p (fs1 fs2 : String → Option (List Char)),
      fs1 p = some (s ++ [c, '\n']) → fs2 p = some (s ++ [c]) →
      main [p] fs1 = main [p] fs2) := by
  have hsp : splitlines (s ++ [c, '\n']) = splitlines (s ++ [c]) :=
    splitlinesGo_trailing hc s [] false
  refine ⟨hsp, ?_⟩
  intro p fs1 fs2 h1 h2
  simp only [main, h1, h2]
  rw [show splitlines (s ++ [c, '\n']) = splitlines (s ++ [c]) from hsp]

/-- Witness for C9 (amended) at one-character content. -/
theorem trailing_newline_invariance_witness :
    splitlines ['a', '\n'] = splitlines ['a'] :=
  (trailing_newline_invariance [] 'a' (by decide)).1

/-- C10: line splitting follows the Unicode line-boundary semantics of
Python `str.splitlines`: a vertical tab, form feed, LINE SEPARATOR
(U+2028) or NEL (U+0085) sitting between two boundary-free segments is a
line boundary, so a source line containing such a character is emitted as
multiple output lines with the separator character removed. -/
theorem unicode_line_boundaries (a b : List Char) (c : Char)
    (ha : ∀ x ∈ a, isLineBreak x = false)
    (hb : ∀ x ∈ b, isLineBreak x = false) (hbne : b ≠ [])
    (hc : c = '\u000b' ∨ c = '\u000c' ∨ c = '\u2028' ∨ c = '\u0085') :
    isLineBreak c = true ∧
    splitlines (a ++ c :: b) = [String.mk a, String.mk b] := by
  have hcb : isLineBreak c = true := by
    rcases hc with rfl | rfl | rfl | rfl <;> decide
  have hcr : c ≠ '\r' := by
    rcases hc with rfl | rfl | rfl | rfl <;> decide
  refine ⟨hcb, ?_⟩
  unfold splitlines
  rw [splitlinesGo_split hcb hcr b a [] ha, splitlinesGo_breakFree b [] hb]
  simp [hbne]

/-- Witness for C10 at a form feed between two one-character segments. -/
theorem unicode_line_boundaries_witness :
    splitlines ['a', '\u000c', 'b'] = [String.mk ['a'], String.mk ['b']] :=
  (unicode_line_boundaries ['a'] ['b'] '\u000c' (by decide) (by decide)
    (by decide) (Or.inr (Or.inl rfl))).2

end MangleSource
